import Mathlib

/-!
Shallow embedding of the voice-command pipeline of `voice_assistant.py`
(classes `VoicePreprocessor`, `VoiceClassifier`, `VoiceFeatureExtractor`,
`VoiceAssistant`).

Strings are modelled as `String` / `List Char`.  The Python regular
expressions used by the source are fixed literal patterns
(`\b(um|uh|er|ah)\b`, `\b(like|you know|basically|actually)\b`, `\s+`,
`[^\w\s]`, and `(?:on|about|for|in)\s+([a-zA-Z0-9_\-\s]+)$`), so each is
embedded as an executable function with Python `re.sub` / `re.search`
semantics (leftmost, non-overlapping matches; alternatives tried in
order; greedy quantifiers with backtracking).  The character classes
`\w` and `\s` are modelled over their ASCII range (`[a-zA-Z0-9_]` and
`[ \t\n\r\f\v]`); the source's inputs of interest are ASCII and Python's
additional Unicode members of these classes play no role in the claims.

Python `float` confidences are modelled as `ℚ`; Python exceptions as
`Except String`.  External collaborators (the fitted scikit-learn
pipeline and the mock-interview session object) are modelled as records
of their observable operations.
-/

namespace VoiceAsst

/-- Model of Python's regex class `\s` (ASCII range): space, tab, newline,
carriage return, vertical tab, form feed. -/
def isPyWs (c : Char) : Bool :=
  c = ' ' || c = '\t' || c = '\n' || c = '\r' || c = '\x0b' || c = '\x0c'

/-- Model of Python's regex class `\w` (ASCII range): letters, digits,
underscore. -/
def isWordCh (c : Char) : Bool :=
  c.isAlphanum || c = '_'

/-- Drop a matching run of elements from the end of a list. -/
def dropTrailing (p : Char → Bool) (l : List Char) : List Char :=
  (l.reverse.dropWhile p).reverse

/-- Model of Python's `str.strip()`: remove leading and trailing
whitespace. -/
def pyStrip (l : List Char) : List Char :=
  dropTrailing isPyWs (l.dropWhile isPyWs)

/-- Model of `re.sub(r'\s+', ' ', text)`: every maximal run of whitespace
characters becomes a single space.  A run is collapsed by walking to its
last character, which is emitted as `' '`. -/
def collapseWs : List Char → List Char
  | [] => []
  | [c] => if isPyWs c then [' '] else [c]
  | c :: d :: rest =>
    if isPyWs c && isPyWs d then collapseWs (d :: rest)
    else (if isPyWs c then ' ' else c) :: collapseWs (d :: rest)

/-- Model of `re.sub(r'[^\w\s]', ' ', text)`: each character that is
neither a word character nor whitespace becomes a space. -/
def removePunct (l : List Char) : List Char :=
  l.map fun c => if isWordCh c || isPyWs c then c else ' '

/-- Alternatives of the first noise pattern `\b(um|uh|er|ah)\b`. -/
def fillerWords : List (List Char) :=
  ["um".data, "uh".data, "er".data, "ah".data]

/-- Alternatives of the second noise pattern
`\b(like|you know|basically|actually)\b`. -/
def fillerPhrases : List (List Char) :=
  ["like".data, "you know".data, "basically".data, "actually".data]

/-- Does a word boundary (`\b`) hold before the first character of the
remainder, i.e. is the next character absent or a non-word character?
Every alternative of the two noise patterns ends in a word character, so
this is exactly the trailing `\b` test. -/
def boundaryAfter : List Char → Bool
  | [] => true
  | c :: _ => !(isWordCh c)

/-- Try to match one alternative at the head of `s`, returning the
remainder after the match together with the trailing-boundary check. -/
def matchFillerAt (alt s : List Char) : Option (List Char) :=
  if alt.isPrefixOf s && boundaryAfter (s.drop alt.length) then
    some (s.drop alt.length)
  else none

/-- Try the alternatives of one noise pattern, in order, at the head of
`s`. -/
def findFiller (alts : List (List Char)) (s : List Char) : Option (List Char) :=
  alts.findSome? fun alt => matchFillerAt alt s

/-- Fuelled scan of `re.sub` for a `\b(w1|w2|...)\b` pattern.  `prevW`
records whether the previous character of the original string is a word
character (so that the leading `\b` fails); every alternative starts and
ends with a word character.  Matches are non-overlapping and scanning
resumes after each match; each step consumes at least one character, so
`fuel = s.length` suffices. -/
def subFillersF (alts : List (List Char)) : Nat → Bool → List Char → List Char
  | 0, _, s => s
  | _ + 1, _, [] => []
  | fuel + 1, prevW, c :: cs =>
    if prevW then c :: subFillersF alts fuel (isWordCh c) cs
    else
      match findFiller alts (c :: cs) with
      | some rest => ' ' :: subFillersF alts fuel true rest
      | none => c :: subFillersF alts fuel (isWordCh c) cs

/-- Model of `re.sub(pattern, ' ', text)` for one of the two noise
patterns. -/
def subFillers (alts : List (List Char)) (s : List Char) : List Char :=
  subFillersF alts s.length false s

/-- The body of `VoicePreprocessor.preprocess_text` on a non-empty input,
at the character-list level: lowercase and strip, apply the four noise
patterns in order (filler words, filler phrases, whitespace collapse,
punctuation removal), then collapse whitespace again and strip. -/
def preprocessList (l : List Char) : List Char :=
  pyStrip (collapseWs (removePunct (collapseWs
    (subFillers fillerPhrases (subFillers fillerWords
      (pyStrip (l.map Char.toLower)))))))

/-- Model of `VoicePreprocessor.preprocess_text` (source lines 53-68).
A falsy (empty) input returns `""` immediately. -/
def preprocess_text (s : String) : String :=
  if s = "" then "" else String.mk (preprocessList s.data)

/-- Model of Python's substring test `needle in hay`. -/
def containsSub (needle : List Char) : List Char → Bool
  | [] => needle.isEmpty
  | c :: t => needle.isPrefixOf (c :: t) || containsSub needle t

/-- Enum `VoiceCommandType` (source lines 23-32). -/
inductive VoiceCommandType where
  | start_interview
  | next_question
  | repeat_question
  | evaluate_answer
  | end_interview
  | help
  | prepare_questions
  | unknown
deriving DecidableEq, Repr

/-- The `.value` string of each enum member. -/
def VoiceCommandType.value : VoiceCommandType → String
  | .start_interview => "start_interview"
  | .next_question => "next_question"
  | .repeat_question => "repeat_question"
  | .evaluate_answer => "evaluate_answer"
  | .end_interview => "end_interview"
  | .help => "help"
  | .prepare_questions => "prepare_questions"
  | .unknown => "unknown"

/-- Model of `VoiceCommandType(prediction)` guarded by
`except ValueError: command_type = VoiceCommandType.UNKNOWN`
(source lines 180-183): an unrecognized label string is coerced to
`unknown`. -/
def coerceLabel (s : String) : VoiceCommandType :=
  if s = "start_interview" then .start_interview
  else if s = "next_question" then .next_question
  else if s = "repeat_question" then .repeat_question
  else if s = "evaluate_answer" then .evaluate_answer
  else if s = "end_interview" then .end_interview
  else if s = "help" then .help
  else if s = "prepare_questions" then .prepare_questions
  else if s = "unknown" then .unknown
  else .unknown

/-- Dataclass `VoiceCommand` (source lines 34-40).  `parameters` defaults
to Python `None`, modelled as `Option`; a parameter dict is an
association list.  Confidence (a Python float) is modelled as `ℚ`. -/
structure VoiceCommand where
  command_type : VoiceCommandType
  confidence : ℚ
  raw_text : String
  parameters : Option (List (String × String)) := none
deriving DecidableEq, Repr

/-- External-collaborator model of the fitted scikit-learn pipeline held
by `VoiceClassifier` (a `TfidfVectorizer` plus `MultinomialNB`).  The
library itself is not code of this repository; it is modelled by its
observable operations and its documented contract: `predict` yields a
label string and `predictProbaMax` yields the maximum entry of the
posterior row of `predict_proba`, which is a probability and therefore
lies in `[0,1]` for every input. -/
structure TrainedModel where
  is_trained : Bool
  predict : String → String
  predictProbaMax : String → ℚ
  proba_nonneg : ∀ s : String, 0 ≤ predictProbaMax s
  proba_le_one : ∀ s : String, predictProbaMax s ≤ 1

/-- Alternatives `(?:on|about|for|in)` of the topic regex, in source
order. -/
def topicPreps : List (List Char) :=
  ["on".data, "about".data, "for".data, "in".data]

/-- Membership in the regex class `[a-zA-Z0-9_\-\s]` (ASCII model). -/
def isTopicCh (c : Char) : Bool :=
  c.isAlphanum || c = '_' || c = '-' || isPyWs c

/-- Try to match `(?:on|about|for|in)\s+([a-zA-Z0-9_\-\s]+)$` at the head
of `s`, returning the text of group 1.  After an alternative matches,
`\s+` greedily takes the maximal whitespace run; the group must then
cover the entire (non-empty) remainder with characters of the class.  If
the remainder after the run is empty, backtracking gives one whitespace
character back to the group (possible only when the run has length at
least two). -/
def matchTopicAt (s : List Char) : Option (List Char) :=
  topicPreps.findSome? fun w =>
    if w.isPrefixOf s then
      let rest := s.drop w.length
      let r := (rest.takeWhile isPyWs).length
      let tail := rest.drop r
      if r = 0 then none
      else if tail.isEmpty then
        if 2 ≤ r then some (rest.drop (r - 1)) else none
      else if tail.all isTopicCh then some tail
      else none
    else none

/-- Model of `re.search(r"(?:on|about|for|in)\s+([a-zA-Z0-9_\-\s]+)$", text)`
(source line 204): leftmost position wins; returns group 1. -/
def searchTopic : List Char → Option (List Char)
  | [] => none
  | c :: t =>
    match matchTopicAt (c :: t) with
    | some g => some g
    | none => searchTopic t

/-- Model of `VoiceClassifier._extract_parameters` (source lines
192-208).  The function is total: for labels other than
`start_interview` and `prepare_questions` the dict stays empty, and a
failed topic search simply omits the `topic` key. -/
def extract_parameters (text : String) (command_type : VoiceCommandType) :
    List (String × String) :=
  match command_type with
  | .start_interview =>
    if containsSub "technical".data text.data then [("type", "technical")]
    else if containsSub "behavioral".data text.data then [("type", "behavioral")]
    else []
  | .prepare_questions =>
    match searchTopic text.data with
    | some g => [("topic", String.mk (pyStrip g))]
    | none => []
  | _ => []

/-- Model of `VoiceClassifier.classify_command` (source lines 163-190):
guard on `is_trained`, re-preprocess the input, return
`UNKNOWN`/`0.0` on an empty cleaned text, otherwise predict, coerce the
label, take the maximal posterior as confidence, and extract
parameters from the cleaned text. -/
def classify_command (m : TrainedModel) (text : String) : VoiceCommand :=
  if !m.is_trained then
    { command_type := .unknown, confidence := 0, raw_text := text }
  else
    let cleaned := preprocess_text text
    if cleaned = "" then
      { command_type := .unknown, confidence := 0, raw_text := text }
    else
      let command_type := coerceLabel (m.predict cleaned)
      { command_type := command_type
        confidence := m.predictProbaMax cleaned
        raw_text := text
        parameters := some (extract_parameters cleaned command_type) }

/-- Interview-control keyword vocabulary of
`VoicePreprocessor.extract_keywords` (source lines 76-79). -/
def interview_keywords : List String :=
  ["start", "begin", "interview", "question", "next", "repeat",
   "evaluate", "answer", "end", "finish", "help", "assistance"]

/-- Technical keyword vocabulary of `extract_keywords` (source lines
82-85). -/
def technical_keywords : List String :=
  ["python", "java", "javascript", "react", "node", "database",
   "algorithm", "data structure", "machine learning", "ai"]

/-- Accumulator-based model of Python's `str.split()`: split on runs of
whitespace, discarding empty pieces. -/
def pyWordsAux : List Char → List Char → List (List Char)
  | acc, [] => if acc.isEmpty then [] else [acc.reverse]
  | acc, c :: cs =>
    if isPyWs c then
      if acc.isEmpty then pyWordsAux [] cs else acc.reverse :: pyWordsAux [] cs
    else pyWordsAux (c :: acc) cs

/-- Model of Python's `text.split()`. -/
def pyWords (s : String) : List String :=
  (pyWordsAux [] s.data).map String.mk

/-- Model of `VoicePreprocessor.extract_keywords` (source lines 70-92):
keep, in order and with duplicates, the whitespace-split tokens that are
members of one of the two keyword lists. -/
def extract_keywords (text : String) : List String :=
  (pyWords text).filter fun w =>
    interview_keywords.contains w || technical_keywords.contains w

/-- Question words of `VoiceFeatureExtractor._has_question_words`
(source line 237). -/
def question_words : List String :=
  ["what", "how", "why", "when", "where", "which", "who"]

/-- Model of `_has_question_words` (source lines 235-238): substring
containment in the lower-cased text. -/
def has_question_words (text : String) : Bool :=
  question_words.any fun w => containsSub w.data (text.data.map Char.toLower)

/-- Positive word list of `_analyze_sentiment` (source line 242). -/
def positive_words : List String :=
  ["good", "great", "excellent", "amazing", "wonderful", "perfect"]

/-- Negative word list of `_analyze_sentiment` (source line 243). -/
def negative_words : List String :=
  ["bad", "terrible", "awful", "horrible", "wrong", "incorrect"]

/-- Model of `VoiceFeatureExtractor._analyze_sentiment` (source lines
240-254): `sum(1 for word in list if word in text_lower)` counts how many
listed words occur as substrings of the lower-cased text (each listed
word contributing at most one), then compares the two counts. -/
def analyze_sentiment (text : String) : String :=
  let text_lower := text.data.map Char.toLower
  let positive_count :=
    (positive_words.map fun w => if containsSub w.data text_lower then (1 : Nat) else 0).sum
  let negative_count :=
    (negative_words.map fun w => if containsSub w.data text_lower then (1 : Nat) else 0).sum
  if negative_count < positive_count then "positive"
  else if positive_count < negative_count then "negative"
  else "neutral"

/-- Model of `_analyze_complexity` (source lines 256-266); the float
average word length is modelled as `ℚ`. -/
def analyze_complexity (text : String) : String :=
  let ws := pyWords text
  let word_count := ws.length
  let avg_word_length : ℚ :=
    if 0 < word_count then ((ws.map String.length).sum : ℚ) / (word_count : ℚ) else 0
  if word_count < 5 || avg_word_length < 4 then "simple"
  else if word_count < 15 && avg_word_length < 6 then "moderate"
  else "complex"

/-- Feature dictionary built by `VoiceFeatureExtractor.extract_features`
(source lines 216-233).  The wall-clock `timestamp` and the
audio-derived fields are outside the model (no audio data is passed on
the text pipeline). -/
structure FeatureSet where
  text_length : Nat
  word_count : Nat
  has_question_words : Bool
  sentiment : String
  complexity : String
  keywords : List String
deriving DecidableEq, Repr

/-- Model of `extract_features` on a text input. -/
def extract_features (text : String) : FeatureSet :=
  { text_length := text.data.length
    word_count := (pyWords text).length
    has_question_words := has_question_words text
    sentiment := analyze_sentiment text
    complexity := analyze_complexity text
    keywords := extract_keywords text }

/-- External-collaborator model of the mock-interview session object the
dispatcher drives (the spec's `SessionHandle`).  Each operation may
raise, modelled as `Except String` with the exception's `str()` as the
error value; `current_question` models the
`hasattr`-and-truthy check of `_handle_repeat_question` as an `Option`
holding the current question text. -/
structure MockInterview where
  get_next_question : Except String String
  current_question : Option String
  generate_questions_from_topic : String → Nat → Except String (List String)

/-- Model of `"\n".join([f"1. q1", "2. q2", ...])` built by
`_handle_prepare_questions` (source line 445). -/
def numberedList (qs : List String) : String :=
  String.intercalate "\n" (qs.enum.map fun p => toString (p.1 + 1) ++ ". " ++ p.2)

/-- Model of `_handle_start_interview` (source lines 382-389). -/
def handle_start_interview (mock_interview : Option MockInterview) :
    Except String String :=
  match mock_interview with
  | none => .ok "Mock interview system not available. Please initialize it first."
  | some _ => .ok "Starting the interview. Please wait while I prepare your first question."

/-- Model of `_handle_next_question` (source lines 391-400).  The call
`self.mock_interview.get_next_question()` is not wrapped in a
`try`/`except`, so an exception raised by the session propagates. -/
def handle_next_question (mock_interview : Option MockInterview) :
    Except String String :=
  match mock_interview with
  | none => .ok "Mock interview system not available."
  | some s =>
    match s.get_next_question with
    | .error e => .error e
    | .ok q => .ok ("Here's your next question: " ++ q)

/-- Model of `_handle_repeat_question` (source lines 402-414). -/
def handle_repeat_question (mock_interview : Option MockInterview) :
    Except String String :=
  match mock_interview with
  | none => .ok "Mock interview system not available."
  | some s =>
    match s.current_question with
    | some q => .ok ("Let me repeat the question: " ++ q)
    | none => .ok "No current question available. Please start the interview first."

/-- Model of `_handle_evaluate_answer` (source lines 416-423). -/
def handle_evaluate_answer (mock_interview : Option MockInterview) :
    Except String String :=
  match mock_interview with
  | none => .ok "Mock interview system not available."
  | some _ => .ok "Please provide your answer first, then I can evaluate it for you."

/-- Model of `_handle_end_interview` (source lines 425-432). -/
def handle_end_interview (mock_interview : Option MockInterview) :
    Except String String :=
  match mock_interview with
  | none => .ok "Mock interview system not available."
  | some _ => .ok "Ending the interview. Generating your final report now."

/-- Model of `_handle_prepare_questions` (source lines 434-448):
`topic = (command.parameters or \x7b\x7d).get('topic') or command.raw_text`
falls back to the raw text when the key is absent or its value is falsy;
the session call is inside `try`/`except`, so an exception becomes the
response string `"Error preparing questions: ..."`. -/
def handle_prepare_questions (mock_interview : Option MockInterview)
    (command : VoiceCommand) : Except String String :=
  match mock_interview with
  | none => .ok "Mock interview system not available."
  | some s =>
    let topic :=
      match (command.parameters.getD []).lookup "topic" with
      | some t => if t = "" then command.raw_text else t
      | none => command.raw_text
    match s.generate_questions_from_topic topic 5 with
    | .error e => .ok ("Error preparing questions: " ++ e)
    | .ok [] => .ok "I couldn't generate questions right now. Please try again."
    | .ok qs =>
      .ok ("Prepared questions for '" ++ topic ++ "':\n" ++ numberedList qs)

/-- Help text of `_handle_help` (source lines 450-462). -/
def helpText : String :=
  "\n        Available voice commands:\n        - Say 'start interview' to begin a new interview\n        - Say 'next question' to get the next question\n        - Say 'repeat question' to hear the current question again\n        - Say 'evaluate answer' to get feedback on your answer\n        - Say 'end interview' to finish and get your report\n        - Say 'help' to hear this list again\n        "

/-- Model of `VoiceAssistant.execute_command` (source lines 363-380):
dispatch on the command type.  The result is `Except`: `.ok` is the
returned response string, `.error` an exception propagated to the
caller. -/
def execute_command (mock_interview : Option MockInterview)
    (command : VoiceCommand) : Except String String :=
  match command.command_type with
  | .start_interview => handle_start_interview mock_interview
  | .next_question => handle_next_question mock_interview
  | .repeat_question => handle_repeat_question mock_interview
  | .evaluate_answer => handle_evaluate_answer mock_interview
  | .end_interview => handle_end_interview mock_interview
  | .help => .ok helpText
  | .prepare_questions => handle_prepare_questions mock_interview command
  | .unknown => .ok "I didn't understand that command. Please try again or say 'help' for available commands."

/-- Number of occurrences of `needle` in `hay` (number of positions of
`hay` at which `needle` is a prefix of the remaining suffix; adequate
for the non-empty needles used here). -/
def countOccurrences (needle : List Char) : List Char → Nat
  | [] => 0
  | c :: t =>
    (if needle.isPrefixOf (c :: t) then 1 else 0) + countOccurrences needle t

/-- Modelled from the spec: sentiment that "counts occurrences of a
fixed positive-word list vs. a fixed negative-word list in the
lower-cased text" with every occurrence counted, i.e. a word occurring
twice contributes two; majority wins, tie is neutral. -/
def sentiment_by_occurrences (text : String) : String :=
  let text_lower := text.data.map Char.toLower
  let positive_count := (positive_words.map fun w => countOccurrences w.data text_lower).sum
  let negative_count := (negative_words.map fun w => countOccurrences w.data text_lower).sum
  if negative_count < positive_count then "positive"
  else if positive_count < negative_count then "negative"
  else "neutral"

/-- Modelled from the spec, as amended: sentiment that counts, for each
list, how many of its words are present as substrings of the lower-cased
text, each listed word counted at most once. -/
def sentiment_by_presence (text : String) : String :=
  let text_lower := text.data.map Char.toLower
  let positive_count := (positive_words.filter fun w => containsSub w.data text_lower).length
  let negative_count := (negative_words.filter fun w => containsSub w.data text_lower).length
  if negative_count < positive_count then "positive"
  else if positive_count < negative_count then "negative"
  else "neutral"

/-- Well-formedness at the edges: neither the first nor the last
character is whitespace (the effect of a final `strip()`). -/
def noEdgeWs (l : List Char) : Bool :=
  (l.head?.all fun c => !isPyWs c) && (l.getLast?.all fun c => !isPyWs c)

/-- Whitespace normal form: every whitespace character is a plain space
and no two adjacent characters are both whitespace (the effect of a
`\s+` collapse). -/
def wsNormal : List Char → Bool
  | [] => true
  | [c] => !isPyWs c || c = ' '
  | c :: d :: rest =>
    (!isPyWs c || c = ' ') && !(isPyWs c && isPyWs d) && wsNormal (d :: rest)

/-! Concrete instances used by witnesses and counterexamples. -/

/-- A session whose methods all raise. -/
def crashingSession : MockInterview :=
  { get_next_question := .error "boom"
    current_question := none
    generate_questions_from_topic := fun _ _ => .error "boom" }

/-- A session whose question generation yields the empty list. -/
def emptyGenSession : MockInterview :=
  { get_next_question := .ok "Q"
    current_question := some "Q"
    generate_questions_from_topic := fun _ _ => .ok [] }

/-- A concrete classified `next_question` command. -/
def cmdNext : VoiceCommand :=
  { command_type := .next_question, confidence := 1, raw_text := "next question" }

/-- A concrete classified `prepare_questions` command without a `topic`
parameter. -/
def cmdPrep : VoiceCommand :=
  { command_type := .prepare_questions, confidence := 1,
    raw_text := "prepare questions on python" }

/-- A concrete classified `evaluate_answer` command. -/
def cmdEval : VoiceCommand :=
  { command_type := .evaluate_answer, confidence := 1,
    raw_text := "evaluate my answer" }

/-- A trivial trained-model instance. -/
def trivialModel : TrainedModel :=
  { is_trained := true
    predict := fun _ => "unknown"
    predictProbaMax := fun _ => 1
    proba_nonneg := fun _ => zero_le_one
    proba_le_one := fun _ => le_refl 1 }

/-- The prepare-questions handler cannot propagate an exception: every
branch, the session raising included, produces an `.ok` response. -/
theorem handle_prepare_questions_isOk (mi : MockInterview) (cmd : VoiceCommand) :
    ∃ r : String, handle_prepare_questions (some mi) cmd = .ok r := by
  simp only [handle_prepare_questions]
  split
  · exact ⟨_, rfl⟩
  · exact ⟨_, rfl⟩
  · exact ⟨_, rfl⟩

/-- C2 counterexample: with a session whose `get_next_question` raises,
`execute_command` on a `next_question` command does not return a
response string at all: the exception propagates to the caller. -/
theorem C2_counterexample :
    ¬ ∃ r : String, execute_command (some crashingSession) cmdNext = .ok r := by
  rintro ⟨r, hr⟩
  simp [execute_command, cmdNext, crashingSession, handle_next_question] at hr

/-- C2 as amended: only the `prepare_questions` handler tolerates the
session raising, returning an error-describing `.ok` response for every
session behaviour; the `next_question` handler propagates the session's
exception unchanged. -/
theorem C2_amended :
    (∀ (mi : MockInterview) (cmd : VoiceCommand),
        cmd.command_type = .prepare_questions →
        ∃ r : String, execute_command (some mi) cmd = .ok r) ∧
    (∀ (mi : MockInterview) (cmd : VoiceCommand) (e : String),
        cmd.command_type = .next_question →
        mi.get_next_question = .error e →
        execute_command (some mi) cmd = .error e) := by
  constructor
  · intro mi cmd h
    simpa [execute_command, h] using handle_prepare_questions_isOk mi cmd
  · intro mi cmd e h hg
    simp [execute_command, h, handle_next_question, hg]

/-- C2 witness: the first part of the amended statement at a concrete
crashing session and command. -/
theorem C2_witness :
    ∃ r : String, execute_command (some crashingSession) cmdPrep = .ok r :=
  C2_amended.1 crashingSession cmdPrep rfl

/-- C3 counterexample: with a missing session handle, dispatching an
`evaluate_answer` command does not return the fixed guidance string (it
returns the "system not available" message instead). -/
theorem C3_counterexample :
    execute_command none cmdEval ≠
      .ok "Please provide your answer first, then I can evaluate it for you." := by
  simp [execute_command, cmdEval, handle_evaluate_answer]

/-- C3 as amended: whenever a session handle is present, dispatching an
`evaluate_answer` command returns the fixed guidance string for every
session state; with a missing handle the dispatcher returns the
"system not available" message instead. -/
theorem C3_amended (mi : MockInterview) (cmd : VoiceCommand)
    (h : cmd.command_type = .evaluate_answer) :
    execute_command (some mi) cmd =
      .ok "Please provide your answer first, then I can evaluate it for you." := by
  simp [execute_command, h, handle_evaluate_answer]

/-- C3 witness: the amended statement at a concrete session and
command. -/
theorem C3_witness :
    execute_command (some crashingSession) cmdEval =
      .ok "Please provide your answer first, then I can evaluate it for you." :=
  C3_amended crashingSession cmdEval rfl

/-- C4: for every `prepare_questions` command whose parameters lack a
`topic` key, the dispatcher calls the session's question generation with
the command's raw text as topic and a count of 5; an empty generation
result yields the fixed apology string, a non-empty one a numbered list
of the generated questions, and a raise the error-describing string. -/
theorem C4_theorem (mi : MockInterview) (cmd : VoiceCommand)
    (htype : cmd.command_type = .prepare_questions)
    (hkey : (cmd.parameters.getD []).lookup "topic" = none) :
    execute_command (some mi) cmd =
      match mi.generate_questions_from_topic cmd.raw_text 5 with
      | .error e => .ok ("Error preparing questions: " ++ e)
      | .ok [] => .ok "I couldn't generate questions right now. Please try again."
      | .ok qs =>
        .ok ("Prepared questions for '" ++ cmd.raw_text ++ "':\n" ++ numberedList qs) := by
  simp [execute_command, htype, handle_prepare_questions, hkey]

/-- C4 witness: the theorem at a session generating no questions and a
concrete command, giving the apology string. -/
theorem C4_witness :
    execute_command (some emptyGenSession) cmdPrep =
      .ok "I couldn't generate questions right now. Please try again." :=
  C4_theorem emptyGenSession cmdPrep rfl rfl

/-- C5: for every model state and every input whose normalization is
empty (in particular the empty string, by the witness), classification
returns `unknown` with confidence exactly `0`, with `parameters`
left at its `None` default; no exception is possible (the function is
total). -/
theorem C5_theorem (m : TrainedModel) (text : String)
    (h : preprocess_text text = "") :
    classify_command m text =
      { command_type := .unknown, confidence := 0, raw_text := text,
        parameters := none } := by
  cases hm : m.is_trained <;> simp [classify_command, hm, h]

/-- C5 witness: the empty string at a concrete model. -/
theorem C5_witness :
    classify_command trivialModel "" =
      { command_type := .unknown, confidence := 0, raw_text := "",
        parameters := none } :=
  C5_theorem trivialModel "" rfl

/-- C6: for every model satisfying the probability contract of
`predict_proba` and every input string (non-ASCII, numeric, or
out-of-vocabulary included: the model fields are total over all
strings), the confidence of the classification lies in `[0, 1]`. -/
theorem C6_theorem (m : TrainedModel) (text : String) :
    0 ≤ (classify_command m text).confidence ∧
      (classify_command m text).confidence ≤ 1 := by
  cases hm : m.is_trained
  · simp [classify_command, hm]
  · by_cases hc : preprocess_text text = ""
    · simp [classify_command, hm, hc]
    · simpa [classify_command, hm, hc] using
        ⟨m.proba_nonneg (preprocess_text text), m.proba_le_one (preprocess_text text)⟩

/-- Sum of indicator values over a list equals the length of its
filtration. -/
theorem sum_ite_eq_length_filter (p : String → Bool) (l : List String) :
    (l.map fun w => if p w then (1 : Nat) else 0).sum = (l.filter p).length := by
  induction l with
  | nil => rfl
  | cons a t ih => by_cases h : p a <;> simp [List.filter_cons, h, ih, Nat.add_comm]

/-- C7 counterexample: on `"good good bad terrible"` the code's
sentiment ("negative": one positive word present vs. two negative
words) differs from the spec's occurrence count (two positive
occurrences vs. two negative occurrences, a tie, hence "neutral"). -/
theorem C7_counterexample :
    (extract_features "good good bad terrible").sentiment ≠
      sentiment_by_occurrences "good good bad terrible" := by decide

/-- C7 as amended: the sentiment feature equals the comparison of how
many words of each fixed list are present as substrings of the
lower-cased text, each listed word counted at most once; strictly more
positive words present gives "positive", strictly more negative words
"negative", and a tie "neutral". -/
theorem C7_amended (text : String) :
    (extract_features text).sentiment = sentiment_by_presence text := by
  have h1 := sum_ite_eq_length_filter
    (fun w => containsSub w.data (text.data.map Char.toLower)) positive_words
  have h2 := sum_ite_eq_length_filter
    (fun w => containsSub w.data (text.data.map Char.toLower)) negative_words
  show analyze_sentiment text = sentiment_by_presence text
  simp only [analyze_sentiment, sentiment_by_presence]
  rw [h1, h2]

/-- C8: the parameter extractor is a total function; on the phrase
`"prepare questions on machine learning"` with label
`prepare_questions` it yields the topic `"machine learning"`, and
whenever the topic regex has no match the `topic` key is simply
absent. -/
theorem C8_theorem :
    extract_parameters "prepare questions on machine learning" .prepare_questions =
      [("topic", "machine learning")] ∧
    ∀ text : String, searchTopic text.data = none →
      (extract_parameters text .prepare_questions).lookup "topic" = none := by
  refine ⟨by decide, ?_⟩
  intro text h
  simp [extract_parameters, h]

/-- C8 witness: the no-match conjunct at the concrete input
`"hello"`. -/
theorem C8_witness :
    (extract_parameters "hello" .prepare_questions).lookup "topic" = none :=
  C8_theorem.2 "hello" rfl

/-- C9: normalization is a total deterministic Lean function by
construction; the empty input yields the empty string, and on
`"um, start interview please"` the output is exactly
`"start interview please"`, which contains no filler token and no
leading or trailing whitespace. -/
theorem C9_theorem :
    preprocess_text "" = "" ∧
    preprocess_text "um, start interview please" = "start interview please" := by
  exact ⟨rfl, by decide⟩

/-! Support lemmas for the idempotence analysis of `preprocess_text`. -/

/-- Packing a small scalar value into a `Char` and back is the
identity. -/
theorem char_toNat_ofNat (n : Nat) (h : n < 55296) : (Char.ofNat n).toNat = n := by
  have hv : n.isValidChar := Or.inl h
  rw [Char.ofNat, dif_pos hv]
  simp [Char.ofNatAux, Char.toNat, UInt32.toNat]

/-- Lowercasing a character twice equals lowercasing it once. -/
theorem char_toLower_idem (c : Char) : c.toLower.toLower = c.toLower := by
  by_cases h : c.toNat ≥ 65 ∧ c.toNat ≤ 90
  · have h1 : c.toLower = Char.ofNat (c.toNat + 32) := by
      simp only [Char.toLower]
      rw [if_pos h]
    have hn : (Char.ofNat (c.toNat + 32)).toNat = c.toNat + 32 :=
      char_toNat_ofNat _ (by omega)
    rw [h1]
    simp only [Char.toLower]
    rw [if_neg (by rw [hn]; omega)]
  · have h1 : c.toLower = c := by
      simp only [Char.toLower]
      rw [if_neg h]
    rw [h1]
    exact h1

/-- Mapping an idempotent character function over a list of its fixed
points is the identity. -/
theorem map_toLower_eq_self (l : List Char) (h : ∀ c ∈ l, Char.toLower c = c) :
    l.map Char.toLower = l :=
  (List.map_congr_left h).trans l.map_id

/-- The head of a `dropWhile` residue never satisfies the predicate. -/
theorem dropWhile_head_not (p : Char → Bool) (l : List Char) {c : Char}
    (h : (l.dropWhile p).head? = some c) : p c = false := by
  simpa [h] using List.head?_dropWhile_not p l

/-- A list whose head fails the predicate is unchanged by
`dropWhile`. -/
theorem dropWhile_eq_self_of_all (p : Char → Bool) (l : List Char)
    (h : (l.head?.all fun c => !p c) = true) : l.dropWhile p = l := by
  cases l with
  | nil => rfl
  | cons a t =>
    simp only [List.head?_cons, Option.all_some] at h
    exact List.dropWhile_cons_of_neg (by simp_all)

/-- A list without edge whitespace is unchanged by `pyStrip`. -/
theorem pyStrip_eq_self (l : List Char) (h : noEdgeWs l = true) : pyStrip l = l := by
  rw [noEdgeWs, Bool.and_eq_true] at h
  unfold pyStrip dropTrailing
  rw [dropWhile_eq_self_of_all _ _ h.1]
  rw [dropWhile_eq_self_of_all _ _ (by simpa [List.head?_reverse] using h.2)]
  exact l.reverse_reverse

/-- A non-empty suffix has the same last element as the whole list. -/
theorem getLast?_of_suffix {l₁ l₂ : List Char} (h : l₁ <:+ l₂) (hne : l₁ ≠ []) :
    l₁.getLast? = l₂.getLast? := by
  obtain ⟨t, rfl⟩ := h
  rw [List.getLast?_append]
  cases hl : l₁.getLast? with
  | none => exact absurd (List.getLast?_eq_none_iff.mp hl) hne
  | some c => rfl

/-- `pyStrip` leaves no whitespace at either edge of its result. -/
theorem noEdgeWs_pyStrip (l : List Char) : noEdgeWs (pyStrip l) = true := by
  rw [noEdgeWs, Bool.and_eq_true]
  unfold pyStrip dropTrailing
  constructor
  · rw [List.head?_reverse]
    by_cases hne : (l.dropWhile isPyWs).reverse.dropWhile isPyWs = []
    · simp [hne]
    · rw [getLast?_of_suffix (List.dropWhile_suffix isPyWs) hne]
      rw [List.getLast?_reverse]
      cases hh : (l.dropWhile isPyWs).head? with
      | none => simp
      | some c => simp [dropWhile_head_not isPyWs l hh]
  · rw [List.getLast?_reverse]
    cases hh : ((l.dropWhile isPyWs).reverse.dropWhile isPyWs).head? with
    | none => simp
    | some c => simp [dropWhile_head_not isPyWs (l.dropWhile isPyWs).reverse hh]

/-- The tail of a whitespace-normal list is whitespace-normal. -/
theorem wsNormal_tail {c : Char} {t : List Char} (h : wsNormal (c :: t) = true) :
    wsNormal t = true := by
  cases t with
  | nil => rfl
  | cons d r =>
    rw [wsNormal, Bool.and_eq_true, Bool.and_eq_true] at h
    exact h.2

/-- A list headed by a non-whitespace character keeps its head under
`collapseWs`. -/
theorem collapseWs_cons_not_ws (d : Char) (r : List Char) (hd : isPyWs d = false) :
    ∃ u, collapseWs (d :: r) = d :: u := by
  cases r with
  | nil => exact ⟨[], by simp [collapseWs, hd]⟩
  | cons e r' => exact ⟨collapseWs (e :: r'), by simp [collapseWs, hd]⟩

/-- The result of `collapseWs` is whitespace-normal. -/
theorem wsNormal_collapseWs (l : List Char) : wsNormal (collapseWs l) = true := by
  induction l with
  | nil => rfl
  | cons c t ih =>
    cases t with
    | nil => by_cases h : isPyWs c <;> simp [collapseWs, wsNormal, h]
    | cons d r =>
      by_cases hcd : (isPyWs c && isPyWs d) = true
      · rw [collapseWs, if_pos hcd]
        exact ih
      · rw [collapseWs, if_neg hcd]
        by_cases hc : isPyWs c = true
        · have hd : isPyWs d = false := by
            simp [hc] at hcd
            exact hcd
          obtain ⟨u, hu⟩ := collapseWs_cons_not_ws d r hd
          rw [hu] at ih ⊢
          rw [if_pos hc, wsNormal]
          simp [hd, ih]
        · obtain ⟨u, hu⟩ : ∃ u, collapseWs (d :: r) = u := ⟨_, rfl⟩
          rw [hu] at ih ⊢
          rw [if_neg hc]
          cases u with
          | nil => simp [wsNormal, hc]
          | cons f v =>
            rw [wsNormal, Bool.and_eq_true, Bool.and_eq_true]
            exact ⟨⟨by simp [hc], by simp [hc]⟩, ih⟩

/-- A whitespace-normal list is a fixed point of `collapseWs`. -/
theorem collapseWs_eq_self (l : List Char) (h : wsNormal l = true) :
    collapseWs l = l := by
  induction l with
  | nil => rfl
  | cons c t ih =>
    cases t with
    | nil =>
      by_cases hc : isPyWs c = true
      · have : c = ' ' := by
          simp only [wsNormal, Bool.or_eq_true] at h
          rcases h with h' | h'
          · exact absurd hc (by simp_all)
          · exact of_decide_eq_true h'
        simp [collapseWs, hc, this]
      · simp [collapseWs, hc]
    | cons d r =>
      rw [wsNormal, Bool.and_eq_true, Bool.and_eq_true] at h
      obtain ⟨⟨h1, h2⟩, h3⟩ := h
      have hcd : (isPyWs c && isPyWs d) = false := by
        rcases (by simpa using h2 : isPyWs c = false ∨ isPyWs d = false) with h' | h' <;>
          simp [h']
      rw [collapseWs, if_neg (by simp [hcd])]
      have hhead : (if isPyWs c then ' ' else c) = c := by
        by_cases hc : isPyWs c = true
        · rw [if_pos hc]
          rw [Bool.or_eq_true] at h1
          rcases h1 with h' | h'
          · exact absurd hc (by simp_all)
          · exact (of_decide_eq_true h').symm
        · rw [if_neg hc]
      rw [hhead, ih h3]

/-- Whitespace normality restricts to a left factor of an append. -/
theorem wsNormal_append_left (l₁ l₂ : List Char)
    (h : wsNormal (l₁ ++ l₂) = true) : wsNormal l₁ = true := by
  induction l₁ with
  | nil => rfl
  | cons c t ih =>
    cases t with
    | nil =>
      cases l₂ with
      | nil => simpa using h
      | cons d r =>
        rw [List.cons_append, List.nil_append] at h
        rw [wsNormal, Bool.and_eq_true, Bool.and_eq_true] at h
        rw [wsNormal]
        exact h.1.1
    | cons d r =>
      rw [List.cons_append] at h
      simp only [wsNormal, Bool.and_eq_true] at h ⊢
      exact ⟨h.1, ih h.2⟩

/-- Whitespace normality restricts to prefixes. -/
theorem wsNormal_of_prefix {l₁ l₂ : List Char} (hp : l₁ <+: l₂)
    (h : wsNormal l₂ = true) : wsNormal l₁ = true := by
  obtain ⟨t, rfl⟩ := hp
  exact wsNormal_append_left l₁ t h

/-- Whitespace normality is preserved by `dropWhile`. -/
theorem wsNormal_dropWhile (p : Char → Bool) (l : List Char)
    (h : wsNormal l = true) : wsNormal (l.dropWhile p) = true := by
  induction l with
  | nil => rfl
  | cons c t ih =>
    by_cases hc : p c = true
    · rw [List.dropWhile_cons_of_pos hc]
      exact ih (wsNormal_tail h)
    · rw [List.dropWhile_cons_of_neg (by simp [hc])]
      exact h

/-- `dropTrailing` yields a prefix of its input. -/
theorem dropTrailing_prefix_of (p : Char → Bool) (l : List Char) :
    dropTrailing p l <+: l := by
  unfold dropTrailing
  have h1 : l.reverse.dropWhile p <:+ l.reverse := List.dropWhile_suffix p
  have h2 := List.reverse_prefix.mpr h1
  simpa using h2

/-- Whitespace normality is preserved by `pyStrip`. -/
theorem wsNormal_pyStrip (l : List Char) (h : wsNormal l = true) :
    wsNormal (pyStrip l) = true :=
  wsNormal_of_prefix (dropTrailing_prefix_of _ _) (wsNormal_dropWhile _ _ h)

/-- Characters of `pyStrip l` come from `l`. -/
theorem mem_pyStrip {c : Char} {l : List Char} (h : c ∈ pyStrip l) : c ∈ l := by
  have h1 : pyStrip l <+: l.dropWhile isPyWs := dropTrailing_prefix_of _ _
  exact (List.dropWhile_suffix isPyWs).subset (h1.subset h)

/-- Characters of `collapseWs l` are spaces or non-whitespace characters
of `l`. -/
theorem mem_collapseWs {c : Char} {l : List Char} (h : c ∈ collapseWs l) :
    c = ' ' ∨ (c ∈ l ∧ isPyWs c = false) := by
  induction l with
  | nil => simp [collapseWs] at h
  | cons x t ih =>
    cases t with
    | nil =>
      by_cases hx : isPyWs x = true
      · simp [collapseWs, hx] at h
        exact Or.inl h
      · simp [collapseWs, hx] at h
        exact Or.inr ⟨by simp [h], by rw [h]; simpa using hx⟩
    | cons d r =>
      by_cases hxd : (isPyWs x && isPyWs d) = true
      · rw [collapseWs, if_pos hxd] at h
        rcases ih h with h' | ⟨h1, h2⟩
        · exact Or.inl h'
        · exact Or.inr ⟨List.mem_cons_of_mem x h1, h2⟩
      · rw [collapseWs, if_neg (by simp_all)] at h
        rcases List.mem_cons.mp h with h' | h'
        · by_cases hx : isPyWs x = true
          · rw [if_pos hx] at h'
            exact Or.inl h'
          · rw [if_neg hx] at h'
            exact Or.inr ⟨by simp [h'], by rw [h']; simpa using hx⟩
        · rcases ih h' with h'' | ⟨h1, h2⟩
          · exact Or.inl h''
          · exact Or.inr ⟨List.mem_cons_of_mem x h1, h2⟩

/-- Characters of `removePunct l` are spaces or characters of `l` that
are word characters or whitespace. -/
theorem mem_removePunct {c : Char} {l : List Char} (h : c ∈ removePunct l) :
    c = ' ' ∨ (c ∈ l ∧ (isWordCh c || isPyWs c) = true) := by
  unfold removePunct at h
  rcases List.mem_map.mp h with ⟨d, hd, hmap⟩
  by_cases hdc : (isWordCh d || isPyWs d) = true
  · rw [if_pos hdc] at hmap
    exact Or.inr ⟨hmap ▸ hd, hmap ▸ hdc⟩
  · rw [if_neg hdc] at hmap
    exact Or.inl hmap.symm

/-- A successful filler match leaves a sublist of the scanned text. -/
theorem findFiller_sub {alts : List (List Char)} {s rest : List Char}
    (h : findFiller alts s = some rest) : rest ⊆ s := by
  obtain ⟨alt, _, halt⟩ := List.exists_of_findSome?_eq_some h
  unfold matchFillerAt at halt
  split at halt
  · cases halt
    exact List.drop_subset _ _
  · cases halt

/-- Characters of a filler substitution are spaces or characters of the
input. -/
theorem mem_subFillersF {alts : List (List Char)} {c : Char} (fuel : Nat) :
    ∀ (b : Bool) (l : List Char), c ∈ subFillersF alts fuel b l → c ∈ l ∨ c = ' ' := by
  induction fuel with
  | zero => exact fun b l h => Or.inl h
  | succ n ih =>
    intro b l h
    cases l with
    | nil => simp [subFillersF] at h
    | cons x xs =>
      cases b with
      | true =>
        rw [subFillersF, if_pos rfl] at h
        rcases List.mem_cons.mp h with h' | h'
        · exact Or.inl (by simp [h'])
        · rcases ih _ _ h' with h'' | h''
          · exact Or.inl (List.mem_cons_of_mem x h'')
          · exact Or.inr h''
      | false =>
        rw [subFillersF, if_neg (by simp)] at h
        cases hf : findFiller alts (x :: xs) with
        | some rest =>
          rw [hf] at h
          rcases List.mem_cons.mp h with h' | h'
          · exact Or.inr h'
          · rcases ih _ _ h' with h'' | h''
            · exact Or.inl (findFiller_sub hf h'')
            · exact Or.inr h''
        | none =>
          rw [hf] at h
          rcases List.mem_cons.mp h with h' | h'
          · exact Or.inl (by simp [h'])
          · rcases ih _ _ h' with h'' | h''
            · exact Or.inl (List.mem_cons_of_mem x h'')
            · exact Or.inr h''

/-- Characters of `subFillers alts l` are spaces or characters of
`l`. -/
theorem mem_subFillers {alts : List (List Char)} {c : Char} {l : List Char}
    (h : c ∈ subFillers alts l) : c ∈ l ∨ c = ' ' :=
  mem_subFillersF l.length false l h

/-- A list of word characters and plain spaces is a fixed point of
`removePunct`. -/
theorem removePunct_eq_self (l : List Char)
    (h : ∀ c ∈ l, isWordCh c = true ∨ c = ' ') : removePunct l = l := by
  unfold removePunct
  have : ∀ c ∈ l, (fun c => if isWordCh c || isPyWs c then c else ' ') c = id c := by
    intro c hc
    rcases h c hc with h' | h'
    · simp [h']
    · subst h'
      simp [isPyWs]
  exact (List.map_congr_left this).trans l.map_id

/-- Every character of a preprocessed text is a lowercase-stable word
character or a plain space. -/
theorem preprocessList_chars {c : Char} (l : List Char)
    (h : c ∈ preprocessList l) :
    (isWordCh c = true ∨ c = ' ') ∧ Char.toLower c = c := by
  unfold preprocessList at h
  have h1 := mem_pyStrip h
  rcases mem_collapseWs h1 with hsp | ⟨h2, hnw⟩
  · subst hsp
    exact ⟨Or.inr rfl, rfl⟩
  · rcases mem_removePunct h2 with hsp | ⟨h3, hcls⟩
    · subst hsp
      exact ⟨Or.inr rfl, rfl⟩
    · have hw : isWordCh c = true := by
        rcases Bool.or_eq_true _ _ ▸ hcls with h' | h'
        · exact h'
        · exact absurd h' (by simp [hnw])
      refine ⟨Or.inl hw, ?_⟩
      rcases mem_collapseWs h3 with hsp | ⟨h4, _⟩
      · subst hsp
        rfl
      · rcases mem_subFillers h4 with h5 | h5
        · rcases mem_subFillers h5 with h6 | h6
          · rcases List.mem_map.mp (mem_pyStrip h6) with ⟨d, _, rfl⟩
            exact char_toLower_idem d
          · subst h6
            rfl
        · subst h5
          rfl

/-- Preprocessed text is whitespace-normal. -/
theorem preprocessList_wsNormal (l : List Char) :
    wsNormal (preprocessList l) = true :=
  wsNormal_pyStrip _ (wsNormal_collapseWs _)

/-- Preprocessed text has no whitespace at its edges. -/
theorem preprocessList_noEdgeWs (l : List Char) :
    noEdgeWs (preprocessList l) = true :=
  noEdgeWs_pyStrip _

/-- A string in the image of the preprocessor that the two
filler-removal passes leave unchanged is a fixed point of the whole
preprocessing body. -/
theorem preprocessList_fixed (t : List Char)
    (hchars : ∀ c ∈ t, (isWordCh c = true ∨ c = ' ') ∧ Char.toLower c = c)
    (hedge : noEdgeWs t = true)
    (hws : wsNormal t = true)
    (h1 : subFillers fillerWords t = t)
    (h2 : subFillers fillerPhrases t = t) :
    preprocessList t = t := by
  unfold preprocessList
  rw [map_toLower_eq_self t fun c hc => (hchars c hc).2]
  rw [pyStrip_eq_self t hedge, h1, h2]
  rw [collapseWs_eq_self t hws]
  rw [removePunct_eq_self t fun c hc => (hchars c hc).1]
  rw [collapseWs_eq_self t hws]
  exact pyStrip_eq_self t hedge

/-- C10 counterexample: `preprocess_text` is not idempotent.  On
`"you,know"` the first pass replaces the comma by a space, producing
`"you know"`, and only a second pass matches the filler phrase
`\byou know\b` and deletes it, producing `""`. -/
theorem C10_counterexample :
    preprocess_text (preprocess_text "you,know") ≠ preprocess_text "you,know" := by
  decide

/-- C10 as amended: `preprocess_text` is idempotent on every input whose
normalized output is left unchanged by the two filler-removal
substitutions (in general normalization can manufacture a new filler
match out of punctuation or repeated whitespace, and a second pass then
differs). -/
theorem C10_amended (s : String)
    (h1 : subFillers fillerWords (preprocess_text s).data = (preprocess_text s).data)
    (h2 : subFillers fillerPhrases (preprocess_text s).data = (preprocess_text s).data) :
    preprocess_text (preprocess_text s) = preprocess_text s := by
  by_cases hr : preprocess_text s = ""
  · rw [hr]
    rfl
  · by_cases hs : s = ""
    · exact absurd (by rw [hs]; rfl) hr
    · have hts : preprocess_text s = String.mk (preprocessList s.data) := by
        unfold preprocess_text
        rw [if_neg hs]
      have htd : (preprocess_text s).data = preprocessList s.data := by rw [hts]
      have hfix : preprocessList (preprocess_text s).data = (preprocess_text s).data := by
        refine preprocessList_fixed _ ?_ ?_ ?_ h1 h2
        · rw [htd]
          exact fun c hc => preprocessList_chars s.data hc
        · rw [htd]
          exact preprocessList_noEdgeWs s.data
        · rw [htd]
          exact preprocessList_wsNormal s.data
      show preprocess_text (preprocess_text s) = preprocess_text s
      conv_lhs => rw [preprocess_text.eq_def]
      rw [if_neg hr, hfix]

/-- C10 witness: the amended statement at the concrete input
`"start interview"`, whose normalization is already filler-free. -/
theorem C10_witness :
    preprocess_text (preprocess_text "start interview") =
      preprocess_text "start interview" :=
  C10_amended "start interview" (by decide) (by decide)

end VoiceAsst
